import Mathlib

/-!
Verification of the FAA daily-bulletin builder (`build_site.py`).

The program fetches an XML feed, parses it with `xmltodict` into nested
dictionaries / lists / scalar strings / `None`, extracts airport event
records, de-duplicates and sorts them, and renders an HTML page.

This file gives a shallow embedding of the parsed-tree data model and of
every function of `build_site.py` that the claims touch, and proves the
claims about those definitions.
-/

set_option maxRecDepth 10000

/-- The generic value tree produced by `xmltodict.parse`: a Python object
that is a string, `None`, a dict with string keys (in insertion order), or
a list.  This is the `Any`-typed data `build_site.py` traverses. -/
inductive Node where
  | str  : String → Node
  | null : Node
  | dict : List (String × Node) → Node
  | arr  : List Node → Node

/-- Python truthiness (`bool(x)`) for the values a parsed tree can hold:
`None` and empty strings / dicts / lists are falsy. -/
def pyTruthy : Node → Bool
  | .str s   => s != ""
  | .null    => false
  | .dict es => !es.isEmpty
  | .arr xs  => !xs.isEmpty

/-- `d.get(k)` on a dict's entry list: the first value stored under `k`,
or Python `None` (here `Node.null`) when the key is absent.  (The parsed
trees never hold duplicate keys, so first-match is exact.) -/
def dictGet (es : List (String × Node)) (k : String) : Node :=
  match es with
  | [] => .null
  | (k', v) :: rest => if k' = k then v else dictGet rest k

mutual

/-- `find_all_key` from `build_site.py`: collect every value stored under
`key` anywhere in the tree, appending the value at a dict entry before the
results of recursing into that value. -/
def find_all_key : Node → String → List Node
  | .str _, _ => []
  | .null, _ => []
  | .dict es, key => findInEntries es key
  | .arr xs, key => findInArr xs key

/-- The dict-entry loop of `find_all_key` (`for k, v in obj.items()`). -/
def findInEntries : List (String × Node) → String → List Node
  | [], _ => []
  | (k, v) :: rest, key =>
      (if k = key then [v] else []) ++ find_all_key v key ++ findInEntries rest key

/-- The list loop of `find_all_key` (`for v in obj`). -/
def findInArr : List Node → String → List Node
  | [], _ => []
  | v :: rest, key => find_all_key v key ++ findInArr rest key

end

mutual

/-- Specification-side definition (the spec's words, for comparison with
`find_all_key`): the pre-order, depth-first enumeration of all dict
entries of a tree, visiting dict entries in their stored order and list
elements in index order (a dict entry is listed before the entries found
inside its value). -/
def entriesPre : Node → List (String × Node)
  | .str _ => []
  | .null => []
  | .dict es => entriesPreEntries es
  | .arr xs => entriesPreArr xs

/-- Entry enumeration over a dict's entry list. -/
def entriesPreEntries : List (String × Node) → List (String × Node)
  | [] => []
  | (k, v) :: rest => (k, v) :: (entriesPre v ++ entriesPreEntries rest)

/-- Entry enumeration over a list's elements. -/
def entriesPreArr : List Node → List (String × Node)
  | [] => []
  | v :: rest => entriesPre v ++ entriesPreArr rest

end

mutual

theorem find_all_key_eq (t : Node) (key : String) :
    find_all_key t key = ((entriesPre t).filter (fun p => p.1 == key)).map Prod.snd := by
  match t with
  | .str s => rfl
  | .null => rfl
  | .dict es => simpa [find_all_key, entriesPre] using findInEntries_eq es key
  | .arr xs => simpa [find_all_key, entriesPre] using findInArr_eq xs key

theorem findInEntries_eq (es : List (String × Node)) (key : String) :
    findInEntries es key =
      ((entriesPreEntries es).filter (fun p => p.1 == key)).map Prod.snd := by
  match es with
  | [] => rfl
  | (k, v) :: rest =>
      by_cases h : k = key <;>
        simp [findInEntries, entriesPreEntries, List.filter_append, h,
          find_all_key_eq v key, findInEntries_eq rest key]

theorem findInArr_eq (xs : List Node) (key : String) :
    findInArr xs key =
      ((entriesPreArr xs).filter (fun p => p.1 == key)).map Prod.snd := by
  match xs with
  | [] => rfl
  | v :: rest =>
      simp [findInArr, entriesPreArr, List.filter_append,
        find_all_key_eq v key, findInArr_eq rest key]

end

/-- C5: the Tree Extractor `find_all_key` returns exactly the values
stored under the target key, in the order of first encounter of the
pre-order, depth-first traversal (dict entries in stored order, list
elements in index order); when the key occurs nowhere it returns `[]`. -/
theorem C5_find_all_key_preorder (t : Node) (key : String) :
    find_all_key t key = ((entriesPre t).filter (fun p => p.1 == key)).map Prod.snd ∧
    ((∀ p ∈ entriesPre t, p.1 ≠ key) → find_all_key t key = []) := by
  refine ⟨find_all_key_eq t key, fun h => ?_⟩
  rw [find_all_key_eq t key, List.filter_eq_nil_iff.mpr ?_, List.map_nil]
  intro p hp
  simpa using h p hp

/-- Witness for C5 at a concrete tree: the key `"k"` occurs at two depths
and both values are returned in document order; the key `"z"` occurs
nowhere and yields `[]`. -/
theorem C5_witness :
    (find_all_key (.dict [("a", .dict [("k", .str "one")]),
        ("k", .str "two")]) "k" = [.str "one", .str "two"]) ∧
    find_all_key (.dict [("a", .dict [("k", .str "one")]), ("k", .str "two")]) "z" = [] := by
  constructor
  · simp [find_all_key, findInEntries]
  · exact (C5_find_all_key_preorder _ "z").2 (by simp [entriesPre, entriesPreEntries])

/-- `ensure_list` from `build_site.py`: `None` becomes `[]`, a list is
kept, anything else is wrapped in a one-element list. -/
def ensure_list : Node → List Node
  | .null => []
  | .arr xs => xs
  | x => [x]

mutual

/-- Python `str(x)` for a parsed-tree value: a string is itself, `None`
prints as `None`, dicts and lists print via `repr` of their parts.
(String escaping inside `repr` is not modelled; no digit or structure the
program inspects depends on it.) -/
def pyStr : Node → String
  | .str s => s
  | .null => "None"
  | .dict es => "\x7b" ++ reprEntries es ++ "\x7d"
  | .arr xs => "[" ++ reprItems xs ++ "]"

/-- Python `repr(x)` for a parsed-tree value (quotes around strings). -/
def pyRepr : Node → String
  | .str s => "\x27" ++ s ++ "\x27"
  | .null => "None"
  | .dict es => "\x7b" ++ reprEntries es ++ "\x7d"
  | .arr xs => "[" ++ reprItems xs ++ "]"

/-- `repr` of a dict body: comma-separated `'key': value` items. -/
def reprEntries : List (String × Node) → String
  | [] => ""
  | [(k, v)] => "\x27" ++ k ++ "\x27: " ++ pyRepr v
  | (k, v) :: rest => "\x27" ++ k ++ "\x27: " ++ pyRepr v ++ ", " ++ reprEntries rest

/-- `repr` of a list body: comma-separated items. -/
def reprItems : List Node → String
  | [] => ""
  | [v] => pyRepr v
  | v :: rest => pyRepr v ++ ", " ++ reprItems rest

end

/-- Numeric value of a run of decimal digits (`int` on the matched text). -/
def digitRunVal (run : List Char) : Nat :=
  run.foldl (fun n c => 10 * n + (c.toNat - 48)) 0

/-- The first maximal run of decimal digits anywhere in the text, as a
number (the `re.search(r"\d+", ...)` part of `to_int_safe`); `none` when
the text holds no digit. -/
def firstDigitRun : List Char → Option Nat
  | [] => none
  | c :: cs =>
      if c.isDigit then some (digitRunVal (c :: cs.takeWhile (fun d => d.isDigit)))
      else firstDigitRun cs

/-- `to_int_safe` from `build_site.py` on its annotated `Optional[str]`
domain: falsy input (`None` or `""`) gives `None`, otherwise the first
digit run of the text, if any. -/
def to_int_safe (s : Option String) : Option Nat :=
  match s with
  | none => none
  | some s => if s = "" then none else firstDigitRun s.data

/-- `to_int_safe` as applied inside `parse_events_from_xml`, where the
argument is a parsed-tree value: falsy values give `None`, any other
value is rendered with `str(...)` and searched for a digit run. -/
def toIntSafeNode (v : Node) : Option Nat :=
  if pyTruthy v then firstDigitRun (pyStr v).data else none

/-- The `TYPE_ALIASES` table of `build_site.py`, in source order. -/
def TYPE_ALIASES : List (String × String) :=
  [("Ground Delay Programs", "Ground Delay Program"),
   ("Ground Delay Program", "Ground Delay Program"),
   ("Ground Stops", "Ground Stop"),
   ("Ground Stop", "Ground Stop"),
   ("Airport Closures", "Airport Closure"),
   ("Airport Closure", "Airport Closure"),
   ("Departure Delays", "Departure Delay"),
   ("Departure Delay", "Departure Delay"),
   ("Arrival Delays", "Arrival Delay"),
   ("Arrival Delay", "Arrival Delay"),
   ("Deicing", "Deicing")]

/-- `TYPE_ALIASES.get(k, d)`. -/
def aliasGetD (k d : String) : String :=
  match TYPE_ALIASES.find? (fun p => p.1 == k) with
  | some p => p.2
  | none => d

/-- The `std_type = TYPE_ALIASES.get(name or "", name or "Event")` step of
`parse_events_from_xml`, for the `Name` value of a delay-type block
(`Node.null` standing for an absent key).  A truthy non-string `Name` is
an unhashable dict key in Python, so the whole parse raises `TypeError`;
that is the `.error` case. -/
def stdType : Node → Except Unit String
  | .str s => if s = "" then .ok (aliasGetD "" "Event") else .ok (aliasGetD s s)
  | .null => .ok (aliasGetD "" "Event")
  | .dict es => if es.isEmpty then .ok (aliasGetD "" "Event") else .error ()
  | .arr xs => if xs.isEmpty then .ok (aliasGetD "" "Event") else .error ()

/-- Python `\s` (ASCII model): the whitespace characters `str.strip` and
`re.sub(r"\s+", ...)` act on. -/
def pyIsSpace (c : Char) : Bool :=
  c = ' ' || c = '\t' || c = '\n' || c = '\x0d' || c = '\x0b' || c = '\x0c'

/-- Python `\w` (ASCII model): letters, digits and underscore. -/
def isWordChar (c : Char) : Bool :=
  c.isAlphanum || c = '_'

/-- Strip characters satisfying `p` from both ends (`str.strip`). -/
def stripBoth (p : Char → Bool) (l : List Char) : List Char :=
  ((l.dropWhile p).reverse.dropWhile p).reverse

/-- Whether a `!` at the current position starts a regex match: the
pattern `!\w+...` requires at least one word character right after the
`!`. -/
def shoutStart : List Char → Bool
  | [] => false
  | c :: _ => isWordChar c

mutual

/-- The `re.sub(r"!\w+[^ ]* ?", "", txt)` pass of `friendly_reason`: scan
left to right; at a `!` followed by a word character, the greedy match
swallows the whole run of non-space characters and one trailing space
(`skipToken`), and the scan resumes after it; any other character is
kept. -/
def stripShoutAux : List Char → List Char
  | [] => []
  | x :: rest =>
      if x = '!' then
        if shoutStart rest then skipToken rest else x :: stripShoutAux rest
      else x :: stripShoutAux rest

/-- The `\w+[^ ]* ?` tail of a shouting-code match: consume up to and
including the first space (the greedy run of non-space characters plus
one optional trailing space), then resume the scan. -/
def skipToken : List Char → List Char
  | [] => []
  | x :: rest => if x = ' ' then stripShoutAux rest else skipToken rest

end

/-- `stripShoutAux` on strings. -/
def stripShoutStr (s : String) : String :=
  String.mk (stripShoutAux s.data)

/-- One substitution of the `repl` table: an ordered alternation of
literal words (stored uppercase, matched case-insensitively), optionally
guarded by `\b` word boundaries on both sides, and a replacement.  A
greedy optional suffix such as `CEILINGS?` is the two alternatives
`CEILINGS`, `CEILING` in that order. -/
structure SubRule where
  alts : List (List Char)
  boundary : Bool
  rep : List Char

/-- Match one literal alternative (pattern stored uppercase) against the
start of the text, case-insensitively; returns the number of characters
consumed. -/
def matchLit : List Char → List Char → Option Nat
  | [], _ => some 0
  | _ :: _, [] => none
  | p :: ps, c :: cs => if c.toUpper = p then (matchLit ps cs).map (· + 1) else none

/-- Try the alternatives in order (regex alternation prefers the leftmost
branch), returning the consumed length of the first that matches. -/
def tryAlts : List (List Char) → List Char → Option Nat
  | [], _ => none
  | a :: rest, s =>
      match matchLit a s with
      | some n => some n
      | none => tryAlts rest s

/-- `\b` on the left of a match: start of text or a non-word character
just before (all boundary-guarded alternatives start with a word
character). -/
def boundaryOkBefore : Option Char → Bool
  | none => true
  | some c => !isWordChar c

/-- `\b` on the right of a match: end of text or a non-word character just
after (all boundary-guarded alternatives end with a word character). -/
def boundaryOkAfter : List Char → Bool
  | [] => true
  | c :: _ => !isWordChar c

/-- One `re.sub(pat, rep, txt, flags=re.IGNORECASE)` pass for a rule:
scan left to right over the original text, replace each non-overlapping
match and resume after it; `prev` is the original character before the
scan position, for the `\b` check. -/
def applyRule (r : SubRule) (prev : Option Char) (s : List Char) : List Char :=
  match s with
  | [] => []
  | c :: cs =>
      match (if !r.boundary || boundaryOkBefore prev then tryAlts r.alts (c :: cs) else none) with
      | some (n+1) =>
          if !r.boundary || boundaryOkAfter (cs.drop n) then
            r.rep ++ applyRule r (c :: cs)[n]? (cs.drop n)
          else c :: applyRule r (some c) cs
      | _ => c :: applyRule r (some c) cs
termination_by s.length
decreasing_by
  all_goals (simp [List.length_drop] <;> omega)

/-- The `repl` substitution table of `friendly_reason`, in source order. -/
def REPL : List SubRule :=
  [⟨["GDP".data], true, "Ground Delay Program".data⟩,
   ⟨["GS".data], true, "Ground Stop".data⟩,
   ⟨["AFP".data], true, "Airspace Flow Program (en‑route constraint)".data⟩,
   ⟨["WX".data, "WEATHER".data], false, "weather".data⟩,
   ⟨["VOLUME".data], false, "high traffic volume".data⟩,
   ⟨["LOW CEILINGS".data, "LOW CEILING".data], false, "low clouds".data⟩,
   ⟨["LOW VISIBILITY".data, "LOW VIS".data], false, "low visibility".data⟩,
   ⟨["DEICE".data, "DEICING".data], false, "deicing operations".data⟩,
   ⟨["RWY".data, "RUNWAY".data], false, "runway".data⟩,
   ⟨["TFR".data], false, "temporary flight restriction".data⟩]

/-- The `for pat, rep in repl: txt = re.sub(...)` loop. -/
def applyRules (rs : List SubRule) (s : List Char) : List Char :=
  rs.foldl (fun acc r => applyRule r none acc) s

mutual

/-- The `re.sub(r"\s+", " ", txt)` pass: every maximal run of whitespace
becomes a single space. -/
def squashSpaces : List Char → List Char
  | [] => []
  | c :: cs => if pyIsSpace c then ' ' :: skipWS cs else c :: squashSpaces cs

/-- Consume the rest of a whitespace run already replaced by one space. -/
def skipWS : List Char → List Char
  | [] => []
  | c :: cs => if pyIsSpace c then skipWS cs else c :: squashSpaces cs

end

/-- Characters stripped at the very end of `friendly_reason`
(`.strip(" -:;")`). -/
def isTrimPunct (c : Char) : Bool :=
  c = ' ' || c = '-' || c = ':' || c = ';'

/-- The whole text-rewriting pipeline of `friendly_reason` on the text of
a truthy input: strip shouting codes, `str.strip()`, apply the
substitution table, squash whitespace, strip trailing punctuation. -/
def normalizeReason (s : String) : String :=
  String.mk (stripBoth isTrimPunct (squashSpaces
    (applyRules REPL (stripBoth pyIsSpace (stripShoutAux s.data)))))

/-- `friendly_reason` from `build_site.py` on its annotated
`Optional[str]` domain: falsy input gives `None`; otherwise the
normalized text, or the original string when normalization left nothing
(`return txt or raw`). -/
def friendly_reason (raw : Option String) : Option String :=
  match raw with
  | none => none
  | some s =>
      if s = "" then none
      else
        let txt := normalizeReason s
        some (if txt = "" then s else txt)

/-- `friendly_reason` as applied inside `parse_events_from_xml`, where the
argument is a parsed-tree value (`Node.null` for an absent `Reason` key):
falsy values give `None`; otherwise the value is rendered with `str(...)`
and normalized, the original value being returned when the normalized
text is empty. -/
def friendlyReasonNode (v : Node) : Node :=
  if pyTruthy v then
    let txt := normalizeReason (pyStr v)
    if txt = "" then v else .str txt
  else .null

/-- One canonical event record (`rec` in `parse_events_from_xml`).  The
`type` is always a string (a truthy non-string `Name` aborts the parse
before any record is built); the other extracted fields hold whatever
parsed-tree value the fallback chains produced (`Node.null` standing for
Python `None`). -/
structure Event where
  type : String
  airport : Node
  avg_delay : Option Nat
  trend : Node
  reason : Node
  start : Node
  end_ : Node

/-- Python `a or b` for parsed-tree values: `a` if truthy, else `b`. -/
def pyOr (a b : Node) : Node :=
  if pyTruthy a then a else b

/-- The airport fallback chain of `parse_events_from_xml`:
`ap.get("ARPT") or ap.get("Airport_Code") or ap.get("IATA") or "UNK"`. -/
def airportOf (es : List (String × Node)) : Node :=
  pyOr (dictGet es "ARPT") (pyOr (dictGet es "Airport_Code")
    (pyOr (dictGet es "IATA") (.str "UNK")))

/-- The record built for one airport entry (a dict with entries `es`)
inside a block whose resolved type is `st`. -/
def buildRecord (st : String) (es : List (String × Node)) : Event :=
  { type := st
    airport := airportOf es
    avg_delay := toIntSafeNode (pyOr (dictGet es "Average_Delay")
      (pyOr (dictGet es "Avg_Delay") (dictGet es "Delay")))
    trend := dictGet es "Trend"
    reason := friendlyReasonNode (dictGet es "Reason")
    start := pyOr (dictGet es "Start_Time") (pyOr (dictGet es "StartTime") (dictGet es "Date"))
    end_ := pyOr (dictGet es "End_Time") (dictGet es "EndTime") }

/-- The `for ap in ensure_list(airports)` loop: any entry that is not a
dict is silently skipped. -/
def processAirports (st : String) : List Node → List Event
  | [] => []
  | .dict es :: rest => buildRecord st es :: processAirports st rest
  | _ :: rest => processAirports st rest

/-- `v.get("Airport") if isinstance(v, dict) else None`, then
`ensure_list`. -/
def airportsOf (v : Node) : List Node :=
  ensure_list (match v with | .dict es => dictGet es "Airport" | _ => .null)

/-- `k.endswith(suffix)` on the underlying character lists. -/
def pyEndsWith (s suf : String) : Bool :=
  suf.data.isSuffixOf s.data

/-- The `for k, v in list(dt_item.items())` loop: only keys ending in
`"_List"` contribute airport entries. -/
def processLists (st : String) : List (String × Node) → List Event
  | [] => []
  | (k, v) :: rest =>
      (if pyEndsWith k "_List" then processAirports st (airportsOf v) else []) ++
        processLists st rest

/-- One `dt_item`: a dict resolves its `Name` through `stdType` (which can
abort the parse) and then yields the records of its `*_List` children; any
non-dict item resolves the type from `None` and is then skipped. -/
def processItem : Node → Except Unit (List Event)
  | .dict es => do
      let st ← stdType (dictGet es "Name")
      .ok (processLists st es)
  | _ => .ok []

/-- The `for dt_item in ensure_list(dt)` loop. -/
def processItems : List Node → Except Unit (List Event)
  | [] => .ok []
  | item :: rest => do
      let evs ← processItem item
      let more ← processItems rest
      .ok (evs ++ more)

/-- The `for dt in delay_types` loop. -/
def processDts : List Node → Except Unit (List Event)
  | [] => .ok []
  | dt :: rest => do
      let evs ← processItems (ensure_list dt)
      let more ← processDts rest
      .ok (evs ++ more)

/-- The flat record list of `parse_events_from_xml` before de-duplication
and sorting (the `events` variable). -/
def rawEvents (t : Node) : Except Unit (List Event) :=
  processDts (find_all_key t "Delay_type")

/-- A parsed-tree value usable as part of a dict key of a Python `set`:
strings and `None` are hashable, dicts and lists are not. -/
def hashableNode : Node → Bool
  | .str _ => true
  | .null => true
  | _ => false

/-- Scalar content of a hashable value, used to compare de-dup keys
(`Option.none` for Python `None`); only applied behind the hashability
guard, where it is injective, exactly like Python `==` on the key. -/
def scalarRepr : Node → Option String
  | .str s => some s
  | _ => none

/-- The third component of the de-dup key: `e.get("reason") or ""`. -/
def evKeyReason (e : Event) : Node :=
  if pyTruthy e.reason then e.reason else .str ""

/-- The de-dup key `(e["type"], e["airport"], e.get("reason") or "")`. -/
def evKey (e : Event) : String × Option String × Option String :=
  (e.type, scalarRepr e.airport, scalarRepr (evKeyReason e))

/-- Whether the de-dup key of `e` is hashable (otherwise the `key not in
seen` test raises `TypeError` and the parse aborts). -/
def keyHashable (e : Event) : Bool :=
  hashableNode e.airport && hashableNode (evKeyReason e)

/-- The de-duplication loop of `parse_events_from_xml` with its `seen`
set (modelled as the list of keys added so far). -/
def dedupGo (seen : List (String × Option String × Option String)) :
    List Event → Except Unit (List Event)
  | [] => .ok []
  | e :: rest =>
      if keyHashable e then
        if evKey e ∈ seen then dedupGo seen rest
        else do
          let d ← dedupGo (evKey e :: seen) rest
          .ok (e :: d)
      else .error ()

/-- The whole de-duplication stage (`seen = set(); deduped = []; ...`). -/
def dedupEvents (l : List Event) : Except Unit (List Event) :=
  dedupGo [] l

/-- Specification-side definition (the spec's words, for comparison with
`dedupEvents`): keep the first-encountered record of each composite key
and drop every later record sharing its key. -/
def dedupSpec : List Event → List Event
  | [] => []
  | e :: rest =>
      e :: dedupSpec (rest.filter (fun x => decide ¬(evKey x = evKey e)))
termination_by l => l.length
decreasing_by
  have := List.length_filter_le (fun x => decide ¬(evKey x = evKey e)) rest
  simp at this ⊢
  omega

/-- The airport code used by the sort comparator.  After de-duplication
every airport value is a hashable truthy value, hence a string; the
default for other shapes is never reached on `parse_events_from_xml`'s
own output. -/
def airportStr (e : Event) : String :=
  match e.airport with
  | .str s => s
  | _ => ""

/-- `e["avg_delay"] or 0`. -/
def evAvg (e : Event) : Nat :=
  e.avg_delay.getD 0

/-- The sort key `(-(e["avg_delay"] or 0), e["airport"])`, with the
negation folded into the comparison direction. -/
def sortKey (e : Event) : Nat × String :=
  (evAvg e, airportStr e)

/-- The total preorder realized by `deduped.sort(key=lambda e:
(-(e["avg_delay"] or 0), e["airport"]))`: strictly larger average delay
first, ties broken by lexicographically non-decreasing airport code. -/
def keyLe (a b : Event) : Prop :=
  evAvg b < evAvg a ∨ (evAvg a = evAvg b ∧ airportStr a ≤ airportStr b)

instance : DecidableRel keyLe := fun a b => by
  unfold keyLe
  infer_instance

/-- `list.sort` is a stable sort with respect to the key's total
preorder; any stable sort computes the same list, so it is modelled by
insertion sort. -/
def pySort (l : List Event) : List Event :=
  List.insertionSort keyLe l

/-- `parse_events_from_xml` from `build_site.py`, from the parsed tree
on: extract the flat record list, de-duplicate, sort.  The `.error` case
is a raised exception (caught by `main`). -/
def parse_events_from_xml (t : Node) : Except Unit (List Event) := do
  let raw ← rawEvents t
  let ded ← dedupEvents raw
  .ok (pySort ded)

theorem except_bind_ok {α β ε : Type} (a : α) (f : α → Except ε β) :
    (Except.ok a >>= f) = f a := rfl

theorem except_bind_err {α β ε : Type} (u : ε) (f : α → Except ε β) :
    ((Except.error u : Except ε α) >>= f) = .error u := rfl

theorem dedupGo_eq_spec :
    ∀ (l : List Event) (seen : List (String × Option String × Option String))
      (d : List Event), dedupGo seen l = .ok d →
      d = dedupSpec (l.filter (fun e => decide ¬(evKey e ∈ seen))) := by
  intro l
  induction l with
  | nil =>
      intro seen d h
      simp [dedupGo] at h
      subst h
      simp [dedupSpec]
  | cons e rest ih =>
      intro seen d h
      cases hh : keyHashable e with
      | false => simp [dedupGo, hh] at h
      | true =>
          by_cases hm : evKey e ∈ seen
          · simp only [dedupGo, hh, if_pos hm, if_true] at h
            rw [List.filter_cons_of_neg (by simp [hm])]
            exact ih seen d h
          · simp only [dedupGo, hh, if_neg hm, if_true] at h
            cases hrec : dedupGo (evKey e :: seen) rest with
            | error u => rw [hrec] at h; simp [except_bind_err] at h
            | ok d' =>
                rw [hrec] at h
                simp only [except_bind_ok, Except.ok.injEq] at h
                subst h
                rw [List.filter_cons_of_pos (by simp [hm]), dedupSpec, List.filter_filter]
                congr 1
                rw [ih (evKey e :: seen) d' hrec]
                congr 1
                apply List.filter_congr
                intro x _
                simp only [List.mem_cons, not_or, decide_not]
                cases hx : decide (evKey x = evKey e) <;>
                  cases hy : decide (evKey x ∈ seen) <;> simp_all

/-- C1: whenever the de-duplication loop completes (no unhashable key),
its output is exactly the spec's first-seen-wins selection: for each
composite key `(type, airport, reason-or-empty)` the first-encountered
record survives, every later record with the same key is dropped, and
records with distinct keys are all kept. -/
theorem C1_dedup_first_seen (l d : List Event) (h : dedupEvents l = .ok d) :
    d = dedupSpec l := by
  have h2 := dedupGo_eq_spec l [] d h
  simpa using h2

/-- Witness for C1 on a concrete record list: the second record repeats
the first's key (same type, airport and reason, different delay) and is
dropped; the third has a fresh key and is kept. -/
theorem C1_witness :
    dedupEvents
      [⟨"Ground Stop", .str "JFK", some 30, .null, .null, .null, .null⟩,
       ⟨"Ground Stop", .str "JFK", some 99, .null, .null, .null, .null⟩,
       ⟨"Arrival Delay", .str "LGA", none, .null, .null, .null, .null⟩] =
      .ok [⟨"Ground Stop", .str "JFK", some 30, .null, .null, .null, .null⟩,
           ⟨"Arrival Delay", .str "LGA", none, .null, .null, .null, .null⟩] ∧
    [⟨"Ground Stop", .str "JFK", some 30, .null, .null, .null, .null⟩,
     ⟨"Arrival Delay", .str "LGA", none, .null, .null, .null, .null⟩] =
      dedupSpec
        [⟨"Ground Stop", .str "JFK", some 30, .null, .null, .null, .null⟩,
         ⟨"Ground Stop", .str "JFK", some 99, .null, .null, .null, .null⟩,
         ⟨"Arrival Delay", .str "LGA", none, .null, .null, .null, .null⟩] :=
  ⟨rfl, C1_dedup_first_seen _ _ rfl⟩

theorem keyLe_of_sortKey_eq {a b : Event} (h : sortKey a = sortKey b) : keyLe a b := by
  simp only [sortKey, Prod.mk.injEq] at h
  exact Or.inr ⟨h.1, le_of_eq h.2⟩

instance : IsTotal Event keyLe :=
  ⟨by
    intro a b
    rcases Nat.lt_trichotomy (evAvg a) (evAvg b) with h | h | h
    · exact Or.inr (Or.inl h)
    · rcases le_total (airportStr a) (airportStr b) with hs | hs
      · exact Or.inl (Or.inr ⟨h, hs⟩)
      · exact Or.inr (Or.inr ⟨h.symm, hs⟩)
    · exact Or.inl (Or.inl h)⟩

instance : IsTrans Event keyLe :=
  ⟨by
    intro a b c hab hbc
    rcases hab with h1 | ⟨e1, s1⟩ <;> rcases hbc with h2 | ⟨e2, s2⟩
    · exact Or.inl (h2.trans h1)
    · exact Or.inl (e2 ▸ h1)
    · exact Or.inl (by rw [e1]; exact h2)
    · exact Or.inr ⟨e1.trans e2, s1.trans s2⟩⟩

theorem filter_orderedInsert_pos (e : Event) (k : Nat × String) (hk : sortKey e = k) :
    ∀ l : List Event,
      (List.orderedInsert keyLe e l).filter (fun x => decide (sortKey x = k)) =
        e :: l.filter (fun x => decide (sortKey x = k)) := by
  intro l
  induction l with
  | nil => simp [List.orderedInsert, hk]
  | cons b l ih =>
      by_cases h : keyLe e b
      · simp [List.orderedInsert, h, hk]
      · have hb : ¬(sortKey b = k) := by
          intro hbk
          exact h (keyLe_of_sortKey_eq (hk.trans hbk.symm))
        simp [List.orderedInsert, h, hb, ih]

theorem filter_orderedInsert_neg (e : Event) (k : Nat × String) (hk : ¬(sortKey e = k)) :
    ∀ l : List Event,
      (List.orderedInsert keyLe e l).filter (fun x => decide (sortKey x = k)) =
        l.filter (fun x => decide (sortKey x = k)) := by
  intro l
  induction l with
  | nil => simp [List.orderedInsert, hk]
  | cons b l ih =>
      by_cases h : keyLe e b
      · simp [List.orderedInsert, h, hk]
      · simp [List.orderedInsert, h, List.filter_cons, ih]

theorem pySort_stable (l : List Event) (k : Nat × String) :
    (pySort l).filter (fun x => decide (sortKey x = k)) =
      l.filter (fun x => decide (sortKey x = k)) := by
  induction l with
  | nil => rfl
  | cons e l ih =>
      show (List.orderedInsert keyLe e (List.insertionSort keyLe l)).filter _ = _
      by_cases hk : sortKey e = k
      · rw [filter_orderedInsert_pos e k hk, List.filter_cons_of_pos (by simp [hk])]
        exact congrArg (e :: ·) ih
      · rw [filter_orderedInsert_neg e k hk, List.filter_cons_of_neg (by simp [hk])]
        exact ih

theorem pySort_sorted (l : List Event) : List.Sorted keyLe (pySort l) :=
  List.sorted_insertionSort keyLe l

/-- C2: whenever `parse_events_from_xml` returns, its result is the
stable sort of the de-duplicated list `ded`: adjacent records `a, b`
always satisfy `keyLe a b` (either `a` has strictly greater average delay
— a missing delay counting as `0` — or the delays are equal and `a`'s
airport code is lexicographically ≤ `b`'s), and records with equal sort
keys keep their pre-sort (first-seen) relative order. -/
theorem C2_sorted_and_stable (t : Node) (raw ded : List Event)
    (h1 : rawEvents t = .ok raw) (h2 : dedupEvents raw = .ok ded) :
    parse_events_from_xml t = .ok (pySort ded) ∧
    List.Chain' keyLe (pySort ded) ∧
    ∀ k : Nat × String,
      (pySort ded).filter (fun x => decide (sortKey x = k)) =
        ded.filter (fun x => decide (sortKey x = k)) := by
  refine ⟨?_, (pySort_sorted ded).chain', fun k => pySort_stable ded k⟩
  rw [parse_events_from_xml, h1, except_bind_ok, h2, except_bind_ok]

/-- Witness for C2 on a concrete feed tree with two airports: the parse
hypotheses hold by computation, the result is sorted by descending delay,
and the stability filters agree. -/
theorem C2_witness :
    parse_events_from_xml (.dict [("Delay_type", .dict [("Name", .str "Ground Stops"),
        ("Ground_Stop_List", .dict [("Airport", .arr [
          .dict [("ARPT", .str "LGA"), ("Average_Delay", .str "15 min")],
          .dict [("ARPT", .str "JFK"), ("Average_Delay", .str "45 min")]])])])]) =
      .ok (pySort
        [⟨"Ground Stop", .str "LGA", some 15, .null, .null, .null, .null⟩,
         ⟨"Ground Stop", .str "JFK", some 45, .null, .null, .null, .null⟩]) ∧
    List.Chain' keyLe (pySort
      [⟨"Ground Stop", .str "LGA", some 15, .null, .null, .null, .null⟩,
       ⟨"Ground Stop", .str "JFK", some 45, .null, .null, .null, .null⟩]) :=
  ⟨(C2_sorted_and_stable (.dict [("Delay_type", .dict [("Name", .str "Ground Stops"),
      ("Ground_Stop_List", .dict [("Airport", .arr [
        .dict [("ARPT", .str "LGA"), ("Average_Delay", .str "15 min")],
        .dict [("ARPT", .str "JFK"), ("Average_Delay", .str "45 min")]])])])])
      [⟨"Ground Stop", .str "LGA", some 15, .null, .null, .null, .null⟩,
       ⟨"Ground Stop", .str "JFK", some 45, .null, .null, .null, .null⟩]
      [⟨"Ground Stop", .str "LGA", some 15, .null, .null, .null, .null⟩,
       ⟨"Ground Stop", .str "JFK", some 45, .null, .null, .null, .null⟩]
      rfl rfl).1,
   (C2_sorted_and_stable (.dict [("Delay_type", .dict [("Name", .str "Ground Stops"),
      ("Ground_Stop_List", .dict [("Airport", .arr [
        .dict [("ARPT", .str "LGA"), ("Average_Delay", .str "15 min")],
        .dict [("ARPT", .str "JFK"), ("Average_Delay", .str "45 min")]])])])])
      [⟨"Ground Stop", .str "LGA", some 15, .null, .null, .null, .null⟩,
       ⟨"Ground Stop", .str "JFK", some 45, .null, .null, .null, .null⟩]
      [⟨"Ground Stop", .str "LGA", some 15, .null, .null, .null, .null⟩,
       ⟨"Ground Stop", .str "JFK", some 45, .null, .null, .null, .null⟩]
      rfl rfl).2.1⟩

theorem processAirports_type {st : String} :
    ∀ {aps : List Node} {e : Event}, e ∈ processAirports st aps → e.type = st := by
  intro aps
  induction aps with
  | nil => intro e h; simp [processAirports] at h
  | cons a rest ih =>
      intro e h
      cases a with
      | dict es =>
          simp only [processAirports, List.mem_cons] at h
          rcases h with h | h
          · rw [h]; rfl
          · exact ih h
      | str s => exact ih (by simpa [processAirports] using h)
      | null => exact ih (by simpa [processAirports] using h)
      | arr xs => exact ih (by simpa [processAirports] using h)

theorem processLists_type {st : String} :
    ∀ {es : List (String × Node)} {e : Event}, e ∈ processLists st es → e.type = st := by
  intro es
  induction es with
  | nil => intro e h; simp [processLists] at h
  | cons kv rest ih =>
      intro e h
      obtain ⟨k, v⟩ := kv
      simp only [processLists, List.mem_append] at h
      rcases h with h | h
      · by_cases hk : pyEndsWith k "_List"
        · rw [if_pos hk] at h; exact processAirports_type h
        · rw [if_neg hk] at h; simp at h
      · exact ih h

theorem processItem_type {item : Node} {l : List Event} {e : Event}
    (h : processItem item = .ok l) (he : e ∈ l) :
    ∃ name, stdType name = .ok e.type := by
  cases item with
  | dict es =>
      simp only [processItem] at h
      cases hn : stdType (dictGet es "Name") with
      | error u => rw [hn] at h; simp [except_bind_err] at h
      | ok st =>
          rw [hn] at h
          simp only [except_bind_ok, Except.ok.injEq] at h
          subst h
          exact ⟨dictGet es "Name", by rw [hn, processLists_type he]⟩
  | str s => simp [processItem] at h; subst h; simp at he
  | null => simp [processItem] at h; subst h; simp at he
  | arr xs => simp [processItem] at h; subst h; simp at he

theorem processItems_type :
    ∀ {items : List Node} {l : List Event} {e : Event},
      processItems items = .ok l → e ∈ l → ∃ name, stdType name = .ok e.type := by
  intro items
  induction items with
  | nil => intro l e h he; simp [processItems] at h; subst h; simp at he
  | cons item rest ih =>
      intro l e h he
      simp only [processItems] at h
      cases h1 : processItem item with
      | error u => rw [h1] at h; simp [except_bind_err] at h
      | ok evs =>
          rw [h1, except_bind_ok] at h
          cases h2 : processItems rest with
          | error u => rw [h2] at h; simp [except_bind_err] at h
          | ok more =>
              rw [h2, except_bind_ok] at h
              simp only [Except.ok.injEq] at h
              subst h
              rcases List.mem_append.mp he with hm | hm
              · exact processItem_type h1 hm
              · exact ih h2 hm

theorem processDts_type :
    ∀ {dts : List Node} {l : List Event} {e : Event},
      processDts dts = .ok l → e ∈ l → ∃ name, stdType name = .ok e.type := by
  intro dts
  induction dts with
  | nil => intro l e h he; simp [processDts] at h; subst h; simp at he
  | cons dt rest ih =>
      intro l e h he
      simp only [processDts] at h
      cases h1 : processItems (ensure_list dt) with
      | error u => rw [h1] at h; simp [except_bind_err] at h
      | ok evs =>
          rw [h1, except_bind_ok] at h
          cases h2 : processDts rest with
          | error u => rw [h2] at h; simp [except_bind_err] at h
          | ok more =>
              rw [h2, except_bind_ok] at h
              simp only [Except.ok.injEq] at h
              subst h
              rcases List.mem_append.mp he with hm | hm
              · exact processItems_type h1 hm
              · exact ih h2 hm

theorem dedupGo_mem :
    ∀ {l : List Event} {seen : List (String × Option String × Option String)}
      {d : List Event}, dedupGo seen l = .ok d → ∀ {e : Event}, e ∈ d → e ∈ l := by
  intro l
  induction l with
  | nil => intro seen d h e he; simp [dedupGo] at h; subst h; simp at he
  | cons x rest ih =>
      intro seen d h e he
      cases hh : keyHashable x with
      | false => simp [dedupGo, hh] at h
      | true =>
          by_cases hm : evKey x ∈ seen
          · simp only [dedupGo, hh, if_pos hm, if_true] at h
            exact List.mem_cons_of_mem x (ih h he)
          · simp only [dedupGo, hh, if_neg hm, if_true] at h
            cases hrec : dedupGo (evKey x :: seen) rest with
            | error u => rw [hrec] at h; simp [except_bind_err] at h
            | ok d' =>
                rw [hrec] at h
                simp only [except_bind_ok, Except.ok.injEq] at h
                subst h
                rcases List.mem_cons.mp he with h2 | h2
                · rw [h2]; exact List.mem_cons_self x rest
                · exact List.mem_cons_of_mem x (ih hrec h2)

/-- C3(amended): every event type produced by `parse_events_from_xml` is
the result of resolving some `Name` value through the alias table: it is
either a value of `TYPE_ALIASES`, or the literal `"Event"` (missing or
falsy `Name`), or the raw `Name` string passed through unchanged when it
is absent from the table. -/
theorem C3_type_vocabulary :
    (∀ (name : Node) (s : String), stdType name = .ok s →
      (∃ p ∈ TYPE_ALIASES, p.2 = s) ∨ s = "Event" ∨ name = .str s) ∧
    (∀ (t : Node) (evs : List Event), parse_events_from_xml t = .ok evs →
      ∀ e ∈ evs, ∃ name, stdType name = .ok e.type) := by
  constructor
  · intro name s h
    cases name with
    | str s' =>
        by_cases hs : s' = ""
        · subst hs
          rw [show stdType (Node.str "") = Except.ok "Event" from rfl] at h
          injection h with h2
          exact Or.inr (Or.inl h2.symm)
        · have h0 : stdType (Node.str s') = Except.ok (aliasGetD s' s') := by
            simp [stdType, hs]
          rw [h0] at h
          injection h with h2
          unfold aliasGetD at h2
          cases hf : TYPE_ALIASES.find? (fun p => p.1 == s') with
          | some p =>
              rw [hf] at h2
              exact Or.inl ⟨p, List.mem_of_find?_eq_some hf, h2⟩
          | none =>
              rw [hf] at h2
              subst h2
              exact Or.inr (Or.inr rfl)
    | null =>
        rw [show stdType Node.null = Except.ok "Event" from rfl] at h
        injection h with h2
        exact Or.inr (Or.inl h2.symm)
    | dict es =>
        cases es with
        | nil =>
            rw [show stdType (Node.dict []) = Except.ok "Event" from rfl] at h
            injection h with h2
            exact Or.inr (Or.inl h2.symm)
        | cons a rest =>
            rw [show stdType (Node.dict (a :: rest)) = Except.error () from rfl] at h
            exact Except.noConfusion h
    | arr xs =>
        cases xs with
        | nil =>
            rw [show stdType (Node.arr []) = Except.ok "Event" from rfl] at h
            injection h with h2
            exact Or.inr (Or.inl h2.symm)
        | cons a rest =>
            rw [show stdType (Node.arr (a :: rest)) = Except.error () from rfl] at h
            exact Except.noConfusion h
  · intro t evs h e he
    unfold parse_events_from_xml at h
    cases hr : rawEvents t with
    | error u => rw [hr] at h; simp [except_bind_err] at h
    | ok raw =>
        rw [hr, except_bind_ok] at h
        cases hd : dedupEvents raw with
        | error u => rw [hd] at h; simp [except_bind_err] at h
        | ok ded =>
            rw [hd, except_bind_ok] at h
            simp only [Except.ok.injEq] at h
            subst h
            have he2 : e ∈ ded := by
              unfold pySort at he
              exact (List.mem_insertionSort keyLe).mp he
            have he3 : e ∈ raw := dedupGo_mem hd he2
            exact processDts_type hr he3

/-- Counterexample to C3 as stated: a delay-type block named `"Volcano"`
(a non-empty string absent from the alias table) produces a record whose
`type` is `"Volcano"` — neither a value of `TYPE_ALIASES` nor the literal
`"Event"`. -/
theorem C3_counterexample :
    parse_events_from_xml (.dict [("Delay_type", .dict [("Name", .str "Volcano"),
        ("Volcano_List", .dict [("Airport", .dict [("ARPT", .str "JFK")])])])]) =
      .ok [⟨"Volcano", .str "JFK", none, .null, .null, .null, .null⟩] ∧
    (∀ p ∈ TYPE_ALIASES, p.2 ≠ "Volcano") ∧ "Volcano" ≠ "Event" :=
  ⟨rfl, by decide, by decide⟩

/-- Witness for C3(amended): `"Ground Stops"` resolves to the alias value
`"Ground Stop"`, and the `"Volcano"` record of the counterexample feed
has a `Name` resolving to its type. -/
theorem C3_witness :
    ((∃ p ∈ TYPE_ALIASES, p.2 = "Ground Stop") ∨ "Ground Stop" = "Event" ∨
      Node.str "Ground Stops" = .str "Ground Stop") ∧
    (∃ name, stdType name =
      .ok (Event.type ⟨"Volcano", .str "JFK", none, .null, .null, .null, .null⟩)) :=
  ⟨C3_type_vocabulary.1 (.str "Ground Stops") "Ground Stop" rfl,
   C3_type_vocabulary.2
     (.dict [("Delay_type", .dict [("Name", .str "Volcano"),
        ("Volcano_List", .dict [("Airport", .dict [("ARPT", .str "JFK")])])])])
     [⟨"Volcano", .str "JFK", none, .null, .null, .null, .null⟩] rfl
     ⟨"Volcano", .str "JFK", none, .null, .null, .null, .null⟩
     (List.mem_singleton_self _)⟩

/-- The claim's reading of the airport fallback (specification-side
definition for C8): the first of `ARPT`, `Airport_Code`, `IATA` whose key
is present in the mapping, `"UNK"` when none of them is present. -/
def specAirportFirstPresent (es : List (String × Node)) : Node :=
  if es.any (fun p => p.1 == "ARPT") then dictGet es "ARPT"
  else if es.any (fun p => p.1 == "Airport_Code") then dictGet es "Airport_Code"
  else if es.any (fun p => p.1 == "IATA") then dictGet es "IATA"
  else .str "UNK"

/-- Counterexample to C8 as stated: in the airport entry
`{"ARPT": "", "Airport_Code": "ORD"}` the first *non-absent* value is the
empty string under `ARPT`, but the code's `or`-chain skips the falsy `""`
and yields `"ORD"`. -/
theorem C8_counterexample :
    airportOf [("ARPT", .str ""), ("Airport_Code", .str "ORD")] = .str "ORD" ∧
    specAirportFirstPresent [("ARPT", .str ""), ("Airport_Code", .str "ORD")] = .str "" ∧
    Node.str "ORD" ≠ Node.str "" :=
  ⟨rfl, rfl, by simp⟩

/-- The actual fallback rule (specification side of the amended C8): the
first *truthy* (present, non-`None`, non-empty) value among `ARPT`,
`Airport_Code`, `IATA`, and `"UNK"` when none of them is truthy. -/
def specAirportFirstTruthy (es : List (String × Node)) : Node :=
  if pyTruthy (dictGet es "ARPT") then dictGet es "ARPT"
  else if pyTruthy (dictGet es "Airport_Code") then dictGet es "Airport_Code"
  else if pyTruthy (dictGet es "IATA") then dictGet es "IATA"
  else .str "UNK"

/-- C8(amended): for every airport entry mapping, the record's airport
field is the first truthy value among the source keys `ARPT`,
`Airport_Code`, `IATA` in that order, and `"UNK"` when none of them is
present with a truthy value. -/
theorem C8_airport_fallback (st : String) (es : List (String × Node)) :
    (buildRecord st es).airport = specAirportFirstTruthy es ∧
    airportOf es = specAirportFirstTruthy es :=
  ⟨rfl, rfl⟩

/-- C6: the Text Normalizer maps absence to absence and the empty string
to absence, and on every non-empty input string it returns a non-empty
string — when the normalization pipeline strips the text down to nothing
it falls back to the original raw string. -/
theorem C6_friendly_reason_nonempty :
    friendly_reason none = none ∧
    friendly_reason (some "") = none ∧
    ∀ s : String, s ≠ "" → ∃ r, friendly_reason (some s) = some r ∧ r ≠ "" := by
  refine ⟨rfl, rfl, fun s hs => ?_⟩
  simp only [friendly_reason, if_neg hs]
  by_cases ht : normalizeReason s = ""
  · exact ⟨s, by rw [if_pos ht], hs⟩
  · exact ⟨normalizeReason s, by rw [if_neg ht], ht⟩

/-- Witness for C6: the input `" - "` is non-empty (though normalization
strips it to nothing), so the normalizer returns a non-empty string. -/
theorem C6_witness :
    ∃ r, friendly_reason (some " - ") = some r ∧ r ≠ "" :=
  C6_friendly_reason_nonempty.2.2 " - " (by decide)

/-- Counterexample to C7 as stated: `"!-"` is a token of a leading `!`
followed by non-space characters, yet the stripping pass leaves
`"!- rain"` unchanged (the regex `!\w+[^ ]* ?` needs a word character
after the `!`), instead of producing `"rain"`. -/
theorem C7_counterexample :
    stripShoutStr "!- rain" = "!- rain" ∧ stripShoutStr "!- rain" ≠ "rain" :=
  ⟨rfl, by decide⟩

theorem skipToken_run (post : List Char) :
    ∀ tok : List Char, (∀ x ∈ tok, x ≠ ' ') →
      skipToken (tok ++ ' ' :: post) = stripShoutAux post := by
  intro tok
  induction tok with
  | nil => intro h; simp [skipToken]
  | cons x tk ih =>
      intro h
      have hx : x ≠ ' ' := h x (List.mem_cons_self x tk)
      simpa [skipToken, hx] using ih (fun y hy => h y (List.mem_cons_of_mem x hy))

/-- C7(amended): every token of a leading `!` followed by at least one
word character and then further non-space characters, preceded by text
without `!` and followed by a space, is removed together with that one
trailing space by the shouting-code stripping pass (which runs before the
substitution table is applied). -/
theorem C7_shout_token_stripped (pre tok post : List Char)
    (hpre : ∀ x ∈ pre, x ≠ '!')
    (hw : shoutStart tok = true)
    (hsp : ∀ x ∈ tok, x ≠ ' ') :
    stripShoutAux (pre ++ '!' :: (tok ++ ' ' :: post)) = pre ++ stripShoutAux post := by
  induction pre with
  | nil =>
      cases tok with
      | nil => simp [shoutStart] at hw
      | cons c tk =>
          have hw2 : isWordChar c = true := hw
          have hstart : shoutStart ((c :: tk) ++ ' ' :: post) = true := hw2
          simp only [List.nil_append, stripShoutAux, if_pos rfl, hstart, if_true]
          exact skipToken_run post (c :: tk) hsp
  | cons x pre ih =>
      have hx : x ≠ '!' := hpre x (List.mem_cons_self x pre)
      have ih2 := ih (fun y hy => hpre y (List.mem_cons_of_mem x hy))
      simpa [stripShoutAux, hx] using ih2

/-- Witness for C7(amended): the token `"!N1"` after clean text `"A "`
and before `" C"` is removed together with one trailing space. -/
theorem C7_witness :
    stripShoutAux (['A', ' '] ++ '!' :: (['N', '1'] ++ ' ' :: ['C'])) =
      ['A', ' '] ++ stripShoutAux ['C'] :=
  C7_shout_token_stripped ['A', ' '] ['N', '1'] ['C']
    (by decide) (by decide) (by decide)

/-- `html.escape(str(s), quote=True)` character by character (the
sequential `str.replace` chain of `html.escape` acts per character). -/
def escChar (c : Char) : String :=
  if c = '&' then "&amp;"
  else if c = '<' then "&lt;"
  else if c = '>' then "&gt;"
  else if c = '"' then "&quot;"
  else if c = '\x27' then "&#x27;"
  else String.mk [c]

/-- The renderer's `esc` helper on a string value. -/
def escapeHtml (s : String) : String :=
  String.join (s.data.map escChar)

/-- `summarize_event` from `build_site.py`: one bulletin sentence per
record (field values are rendered with `str(...)`, truthiness gating the
optional parts exactly as in the source). -/
def summarize_event (e : Event) : String :=
  let ap := pyStr e.airport
  let base :=
    if e.type = "Ground Stop" then ap ++ ": Ground stop in effect"
    else if e.type = "Ground Delay Program" then ap ++ ": Ground delay program"
    else if e.type = "Airport Closure" then ap ++ ": Airport closed"
    else if e.type = "Departure Delay" then ap ++ ": Departure delays"
    else if e.type = "Arrival Delay" then ap ++ ": Arrival delays"
    else if e.type = "Deicing" then ap ++ ": Deicing in effect"
    else ap ++ ": " ++ (if e.type = "" then "Event" else e.type)
  let base :=
    match e.avg_delay with
    | some n => if n = 0 then base else base ++ " (~" ++ toString n ++ " min avg delay)"
    | none => base
  let base := if pyTruthy e.reason then base ++ " — " ++ pyStr e.reason else base
  if pyTruthy e.start then base ++ " [since " ++ pyStr e.start ++ "]" else base

/-- One step of the `counts[t] = counts.get(t, 0) + 1` tally, keeping
dict insertion order. -/
def bump : List (String × Nat) → String → List (String × Nat)
  | [], t => [(t, 1)]
  | (k, n) :: rest, t => if k = t then (k, n + 1) :: rest else (k, n) :: bump rest t

/-- The per-type tally of `render_html`. -/
def countsList (events : List Event) : List (String × Nat) :=
  events.foldl (fun acc e => bump acc e.type) []

/-- The order of the count badges: `sorted(counts.items(), key=lambda kv:
(-kv[1], kv[0]))`. -/
def pillLe (a b : String × Nat) : Prop :=
  b.2 < a.2 ∨ (a.2 = b.2 ∧ a.1 ≤ b.1)

instance : DecidableRel pillLe := fun a b => by
  unfold pillLe
  infer_instance

/-- The joined `pill` spans of `render_html`. -/
def pillsOf (events : List Event) : String :=
  String.join ((List.insertionSort pillLe (countsList events)).map
    (fun kv => "<span class=\"pill\">" ++ escapeHtml kv.1 ++ ": " ++
      escapeHtml (toString kv.2) ++ "</span>"))

/-- The headline list: the first 8 events, or the placeholder sentence
when the joined text is empty (`... or "<li>No active airport events
right now.</li>"`). -/
def itemsOf (events : List Event) : String :=
  let s := String.intercalate "\n" ((events.take 8).map
    (fun e => "<li>" ++ escapeHtml (summarize_event e) ++ "</li>"))
  if s = "" then "<li>No active airport events right now.</li>" else s

/-- The distinct event types in first-occurrence order (the keys of the
`by_type` dict built with `setdefault`). -/
def typesOf (events : List Event) : List String :=
  events.foldl (fun acc e => if acc.contains e.type then acc else acc ++ [e.type]) []

/-- The per-type sections, headers sorted alphabetically, each group
listing its events in final sort order (`by_type` groups preserve the
event list's order). -/
def sectionsOf (events : List Event) : List String :=
  (List.insertionSort (fun a b : String => a ≤ b) (typesOf events)).map (fun typ =>
    "<section><h3>" ++ escapeHtml typ ++ "</h3><ul>" ++
      String.intercalate "\n" ((events.filter (fun e => e.type == typ)).map
        (fun e => "<li>" ++ escapeHtml (summarize_event e) ++ "</li>")) ++
      "</ul></section>")

/-- `sections_html`: the joined sections, or the no-events paragraph. -/
def sectionsHtmlOf (events : List Event) : String :=
  let ss := sectionsOf events
  if ss.isEmpty then "<p>No active events.</p>" else String.intercalate "\n" ss

/-- The `css` constant of `render_html`, transcribed verbatim (braces
written with escapes). -/
def css : String :=
  "\n" ++
  "    :root \x7b --bg:#0b1220; --card:#121a2b; --text:#e7eefc; --muted:#b7c0d9; --accent:#7fb3ff; \x7d\n" ++
  "    * \x7b box-sizing: border-box; \x7d\n" ++
  "    body \x7b margin:0; font-family: ui-sans-serif, system-ui, -apple-system, Segoe UI, Roboto, Helvetica, Arial, \"Apple Color Emoji\",\"Segoe UI Emoji\"; background: var(--bg); color: var(--text); \x7d\n" ++
  "    header \x7b padding: 28px 20px; border-bottom: 1px solid #223; background: linear-gradient(180deg, #0b1220, #0b1220cc); position: sticky; top:0; backdrop-filter: blur(6px); \x7d\n" ++
  "    h1 \x7b margin:0 0 6px; font-size: 24px; \x7d\n" ++
  "    .sub \x7b color: var(--muted); font-size: 14px; \x7d\n" ++
  "    main \x7b max-width: 920px; margin: 0 auto; padding: 18px 16px 64px; \x7d\n" ++
  "    .card \x7b background: var(--card); border: 1px solid #223; border-radius: 14px; padding: 16px; margin: 16px 0; box-shadow: 0 10px 25px rgba(3,10,30,.25); \x7d\n" ++
  "    .row \x7b display: flex; gap: 12px; flex-wrap: wrap; \x7d\n" ++
  "    .pill \x7b display:inline-block; padding:6px 10px; border-radius: 999px; border:1px solid #234; background:#0e1730; color:#cfe0ff; font-size: 12px; \x7d\n" ++
  "    h2 \x7b margin:10px 0 8px; font-size: 18px; \x7d\n" ++
  "    h3 \x7b margin:10px 0 8px; font-size: 16px; color: var(--accent); \x7d\n" ++
  "    ul \x7b margin: 0 0 0 18px; \x7d\n" ++
  "    footer \x7b color: var(--muted); font-size: 12px; padding: 24px 16px; text-align: center; \x7d\n" ++
  "    a \x7b color: var(--accent); \x7d\n" ++
  "    "

/-- The part of the `html_doc` f-string before the embedded timestamp. -/
def htmlPre : String :=
  "<!doctype html>\n<html lang=\"en\">\n<meta charset=\"utf-8\">\n" ++
  "<meta name=\"viewport\" content=\"width=device-width, initial-scale=1\">\n" ++
  "<title>FAA Daily Bulletin</title>\n<style>" ++ css ++ "</style>\n<header>\n" ++
  "  <h1>FAA Daily Delay & Event Bulletin</h1>\n  <div class=\"sub\">Generated "

/-- The part of the `html_doc` f-string after the embedded timestamp. -/
def htmlPost (pills items sectionsHtml : String) : String :=
  " — Source: FAA NAS Status (Active Airport Events)</div>\n" ++
  "  <div class=\"row\" style=\"margin-top:10px;\">" ++ pills ++ "</div>\n</header>\n" ++
  "<main>\n  <div class=\"card\">\n    <h2>Today’s Headlines</h2>\n    <ul>\n      " ++
  items ++ "\n    </ul>\n  </div>\n  <div class=\"card\">\n" ++
  "    <h2>All Active Airport Events</h2>\n    " ++ sectionsHtml ++
  "\n  </div>\n</main>\n<footer>\n  Built automatically from the FAA NAS Status XML API. This is an unofficial summary; verify details with your airline and the FAA.\n</footer>\n</html>\n"

/-- `render_html` from `build_site.py`; `today` is the already formatted
local-time generation timestamp (`generated_at.astimezone().strftime`
runs outside the model). -/
def render_html (events : List Event) (today : String) : String :=
  htmlPre ++ (escapeHtml today ++
    htmlPost (pillsOf events) (itemsOf events) (sectionsHtmlOf events))

/-- The events `main` renders for a fetched document: the result of
`parse_events_from_xml` under its `try`, with any raised error (from
`xmltodict.parse`, whose outcome the `tree` argument stands for, or from
the extraction itself) caught and turned into zero events. -/
def eventsOf (tree : Except Unit Node) : List Event :=
  match tree.bind parse_events_from_xml with
  | .ok evs => evs
  | .error _ => []

/-- The fallback page of `main` (`now.isoformat()` is passed in as the
`nowIso` string). -/
def fallbackHtml (nowIso : String) : String :=
  "<!doctype html><meta charset=\x27utf-8\x27><title>FAA Bulletin</title>\n        <pre>Could not retrieve FAA data at " ++
    (nowIso ++ "Z. Will try again next run.</pre>")

/-- What one run of `main` writes to `docs/index.html`. -/
inductive RunOutcome where
  | fallback (page : String)
  | rendered (events : List Event) (page : String)

/-- The file content of an outcome (every outcome writes a page). -/
def pageOf : RunOutcome → String
  | .fallback p => p
  | .rendered _ p => p

/-- `main` from `build_site.py`: `fetched` is what `fetch_xml` returned
(`none` on any fetch error), `tree` the outcome of `xmltodict.parse` on
the fetched text, `nowIso`/`nowFmt` the two formattings of the single
`now` timestamp.  `if not xml_text:` takes the fallback path for `None`
and for the empty string; otherwise parsing runs under `try` and the
page is rendered. -/
def mainModel (fetched : Option String) (tree : Except Unit Node)
    (nowIso nowFmt : String) : RunOutcome :=
  match fetched with
  | none => .fallback (fallbackHtml nowIso)
  | some x =>
      if x = "" then .fallback (fallbackHtml nowIso)
      else .rendered (eventsOf tree) (render_html (eventsOf tree) nowFmt)

/-- C4: no error is fatal.  A failed fetch (`None`) — or a body that is
falsy — yields the fallback page stating the failure and the timestamp,
for every possible parse outcome (parsing is never consulted); a parse
that raises yields the rendered page over the empty event list; and every
run produces exactly one of the two pages, so an output file is always
written and the process ends normally. -/
theorem C4_no_fatal_errors (fetched : Option String) (tree : Except Unit Node)
    (nowIso nowFmt : String) :
    ((fetched = none ∨ fetched = some "") →
      mainModel fetched tree nowIso nowFmt = .fallback (fallbackHtml nowIso)) ∧
    (∀ x, fetched = some x → x ≠ "" → tree.bind parse_events_from_xml = .error () →
      mainModel fetched tree nowIso nowFmt = .rendered [] (render_html [] nowFmt)) ∧
    (mainModel fetched tree nowIso nowFmt = .fallback (fallbackHtml nowIso) ∨
      ∃ evs, mainModel fetched tree nowIso nowFmt = .rendered evs (render_html evs nowFmt)) ∧
    fallbackHtml nowIso =
      "<!doctype html><meta charset=\x27utf-8\x27><title>FAA Bulletin</title>\n        <pre>Could not retrieve FAA data at " ++
        (nowIso ++ "Z. Will try again next run.</pre>") := by
  refine ⟨?_, ?_, ?_, rfl⟩
  · rintro (rfl | rfl) <;> rfl
  · rintro x rfl hx herr
    have he : eventsOf tree = [] := by simp [eventsOf, herr]
    simp [mainModel, hx, he]
  · cases fetched with
    | none => exact Or.inl rfl
    | some x =>
        by_cases hx : x = ""
        · subst hx; exact Or.inl rfl
        · exact Or.inr ⟨eventsOf tree, by simp [mainModel, hx]⟩

/-- Witness for C4: a failed fetch writes the fallback page whatever the
parse outcome would have been, and a successful fetch whose parse raises
writes the rendered page over zero events. -/
theorem C4_witness :
    mainModel none (.error ()) "TS" "TF" = .fallback (fallbackHtml "TS") ∧
    mainModel (some "<bad") (.error ()) "TS" "TF" = .rendered [] (render_html [] "TF") :=
  ⟨(C4_no_fatal_errors none (.error ()) "TS" "TF").1 (Or.inl rfl),
   (C4_no_fatal_errors (some "<bad") (.error ()) "TS" "TF").2.1 "<bad" rfl (by decide) rfl⟩

/-- C9: the pipeline from parsed feed to page is a pure function — two
runs over the same parse outcome and the same formatted timestamp give
the identical HTML string — and for a fixed feed the page depends on the
timestamp only through the single embedded `Generated` field: the parts
before and after the escaped timestamp are the same for any two
timestamps. -/
theorem C9_deterministic_pipeline (t : Except Unit Node) (ts1 ts2 : String) :
    render_html (eventsOf t) ts1 = render_html (eventsOf t) ts1 ∧
    ∃ pre suf : String,
      render_html (eventsOf t) ts1 = pre ++ (escapeHtml ts1 ++ suf) ∧
      render_html (eventsOf t) ts2 = pre ++ (escapeHtml ts2 ++ suf) :=
  ⟨rfl,
   htmlPre,
   htmlPost (pillsOf (eventsOf t)) (itemsOf (eventsOf t)) (sectionsHtmlOf (eventsOf t)),
   rfl, rfl⟩

/-- C10: a fetch that technically succeeds but returns an empty body is
treated exactly like a failed fetch: `if not xml_text:` is true for
`""`, so the fallback page is written and parsing is never consulted —
the run is indistinguishable from the `None` case. -/
theorem C10_empty_body_fallback (tree : Except Unit Node) (nowIso nowFmt : String) :
    mainModel (some "") tree nowIso nowFmt = .fallback (fallbackHtml nowIso) ∧
    mainModel (some "") tree nowIso nowFmt = mainModel none tree nowIso nowFmt :=
  ⟨rfl, rfl⟩
